import Mathlib

set_option maxHeartbeats 1000000

/-
Shallow embedding of the feed-to-record normalization core of the
jpc-local client (a React app that fetches RSS/Atom feeds and parses
them with regexes and DOM queries).

Modelling conventions:
  * A JavaScript string is a `List Char` of Unicode scalar values; the
    handful of regexes with the `u` flag operate on code points, which
    matches this representation.  `String.prototype.length` is UTF-16
    code units, modelled by `utf16Len`.
  * Regex literals are translated into explicit scanning functions with
    JavaScript semantics: leftmost match, alternatives tried in order,
    greedy quantifiers with backtracking (where adjacent character
    classes are disjoint the backtracking is resolved statically and a
    plain greedy run is provably equivalent; where it is not, the
    backtracking search is implemented directly).
  * Platform primitives that live outside the repository (the WHATWG
    URL parser, `Date` parsing, the Unicode `Emoji` property, the DOM)
    are parameters of the embedding; DOM query results are fields of
    the per-item input records.
-/

/-! ### Generic string helpers (JS string primitives) -/

/-- UTF-16 length of one scalar value (astral code points take two units). -/
def utf16CharLen (c : Char) : Nat := if 0x10000 ≤ c.toNat then 2 else 1

/-- JS `String.prototype.length`: the number of UTF-16 code units. -/
def utf16Len (l : List Char) : Nat := (l.map utf16CharLen).sum

/-- The JS whitespace class: regex `\s` and the set `String.prototype.trim`
strips (WhiteSpace plus LineTerminator code points). -/
def isJsWs (c : Char) : Bool :=
  let n := c.toNat
  (9 ≤ n && n ≤ 13) || n = 32 || n = 0xa0 || n = 0x1680 ||
  (0x2000 ≤ n && n ≤ 0x200a) || n = 0x2028 || n = 0x2029 ||
  n = 0x202f || n = 0x205f || n = 0x3000 || n = 0xfeff

/-- JS `String.prototype.trim`. -/
def jsTrim (l : List Char) : List Char :=
  ((l.dropWhile isJsWs).reverse.dropWhile isJsWs).reverse

/-- JS `String.prototype.includes` for a literal search string. -/
def strIncludes : List Char → List Char → Bool
  | [], pat => pat.isPrefixOf []
  | c :: rest, pat => pat.isPrefixOf (c :: rest) || strIncludes rest pat

/-- JS `String.prototype.replace` with a literal (non-regex) search string:
only the first occurrence is replaced. -/
def replaceFirst (pat rep : List Char) : List Char → List Char
  | [] => if pat.isEmpty then rep else []
  | c :: rest =>
    if pat.isPrefixOf (c :: rest) then rep ++ (c :: rest).drop pat.length
    else c :: replaceFirst pat rep rest

/-- JS `String.prototype.replace` with a global regex whose pattern is a
literal string: scan left to right, replace every occurrence, continue
scanning after the replaced text (the replacement is not rescanned).
Fuel-indexed so that the definition is structurally recursive and hence
kernel-evaluable; every step consumes at least one input character when
the pattern is nonempty, so `fuel = input length` (see `replaceAllStr`)
always suffices and the fuel-0 arm is never reached. -/
def replaceAllFuel (pat rep : List Char) : Nat → List Char → List Char
  | _, [] => []
  | 0, l => l
  | fuel + 1, c :: rest =>
    if !pat.isEmpty && pat.isPrefixOf (c :: rest) then
      rep ++ replaceAllFuel pat rep fuel ((c :: rest).drop pat.length)
    else c :: replaceAllFuel pat rep fuel rest

/-- Global literal replacement (see `replaceAllFuel`). -/
def replaceAllStr (pat rep l : List Char) : List Char :=
  replaceAllFuel pat rep l.length l

/-- Scan positions left to right (as a regex engine does) and return the
first position's match, where `m` decides a match anchored at one position. -/
def scanFirst {β : Type} (m : List Char → Option β) : List Char → Option β
  | [] => m []
  | c :: rest =>
    match m (c :: rest) with
    | some r => some r
    | none => scanFirst m rest

/-- JS regex `\d`: ASCII digits only. -/
def isAsciiDigit (c : Char) : Bool := '0' ≤ c && c ≤ '9'

/-- JS regex `\w`: ASCII letters, digits and underscore. -/
def isWordChar (c : Char) : Bool :=
  ('a' ≤ c && c ≤ 'z') || ('A' ≤ c && c ≤ 'Z') || isAsciiDigit c || c = '_'

/-- `parseInt` on a nonempty all-digit capture. -/
def digitsToNat (l : List Char) : Nat :=
  l.foldl (fun n c => 10 * n + (c.toNat - 48)) 0

/-!
### C4 — item-node lookup with fallback (`parseRedditData` and the other
extractors: `getElementsByTagName`, falling back to `querySelectorAll`
when the primary query finds nothing)

The DOM document is external to the repository, so it is embedded as a
pair of query functions over an abstract node type.
-/

/-- A parsed XML document, as the extractors see it: its two node-query
methods. `ν` is the abstract type of DOM element nodes. -/
structure XmlDoc (ν : Type) where
  byTagName : List Char → List ν
  bySelector : List Char → List ν

/-- SocialTab.tsx lines 32–39 (and the identical preamble of every other
extractor): query by tag name; if that yields zero items, re-query with
`querySelectorAll` and use that node list instead. -/
def selectItemNodes {ν : Type} (d : XmlDoc ν) (tag : List Char) : List ν :=
  let items := d.byTagName tag
  if items.length = 0 then d.bySelector tag else items

/-!
### C3 — Reddit pagination (`fetchPosts`, SocialTab.tsx lines 159–171)
-/

/-- JS `Array.prototype.slice(start, end)` for in-range nonnegative
arguments: the elements with indices in `[s, e)`. -/
def jsSlice {α : Type} (l : List α) (s e : Nat) : List α :=
  (l.drop s).take (e - s)

/-- The page window: `newPosts.slice(pageNum*20, pageNum*20 + 20)`
(itemsPerPage = 20). -/
def redditPageSlice {α : Type} (posts : List α) (pageNum : Nat) : List α :=
  jsSlice posts (pageNum * 20) (pageNum * 20 + 20)

/-- `setHasMore(endIndex < newPosts.length)`. -/
def redditHasMore {α : Type} (posts : List α) (pageNum : Nat) : Bool :=
  decide (pageNum * 20 + 20 < posts.length)

/-- The state update: page 0 replaces the list, a later page appends its
window (`setPosts(pagePosts)` vs `setPosts(prev => [...prev, ...pagePosts])`). -/
def redditApplyPage {α : Type} (prev posts : List α) (pageNum : Nat) : List α :=
  if pageNum = 0 then redditPageSlice posts 0
  else prev ++ redditPageSlice posts pageNum

/-!
### C7 — real-estate title field extraction
(`parsePropertyData`, HousingTab.tsx lines 136–154)
-/

/-- Characters matched by `[0-9,]` in the price regex. -/
def isPriceChar (c : Char) : Bool := isAsciiDigit c || c = ','

/-- One-position matcher for `/\$([0-9,]+)/`: a dollar sign followed by a
nonempty greedy run of digits and commas; the capture is the run. -/
def dollarAt : List Char → Option (List Char)
  | '$' :: r =>
    let ds := r.takeWhile isPriceChar
    if ds.isEmpty then none else some ds
  | _ => none

/-- One-position matcher for `/(\d+)BR/` (a digit run followed by a literal
suffix).  `\d+` is greedy and a shorter run would leave a digit where the
literal's first (non-digit) letter must stand, so no backtracking case
survives: the maximal run followed by the literal is the only candidate. -/
def digitsThenLit (lit : List Char) (l : List Char) : Option (List Char) :=
  let ds := l.takeWhile isAsciiDigit
  if !ds.isEmpty && lit.isPrefixOf (l.drop ds.length) then some ds else none

/-- One-position matcher for `/(NEW|PRICE_REDUCED|SOLD|PENDING)/`:
alternatives tried in written order. -/
def statusAt (l : List Char) : Option (List Char) :=
  if ("NEW".toList).isPrefixOf l then some "NEW".toList
  else if ("PRICE_REDUCED".toList).isPrefixOf l then some "PRICE_REDUCED".toList
  else if ("SOLD".toList).isPrefixOf l then some "SOLD".toList
  else if ("PENDING".toList).isPrefixOf l then some "PENDING".toList
  else none

/-- The class `[\u{1F300}-\u{1F9FF}]` used by the emoji regexes. -/
def inMojiRange (c : Char) : Bool := 0x1F300 ≤ c.toNat && c.toNat ≤ 0x1F9FF

/-- The title-derived fields of a property record (HousingTab.tsx
lines 141–154). -/
structure PropertyFields where
  status : List Char
  price : List Char
  bedrooms : List Char
  bathrooms : List Char
  emoji : List Char
deriving DecidableEq

/-- HousingTab.tsx lines 141–154: price `/\$([0-9,]+)/` (else empty),
bedrooms `/(\d+)BR/`, bathrooms `/(\d+)BA/` (else empty), status
`/(NEW|PRICE_REDUCED|SOLD|PENDING)/` (else "ACTIVE"), emoji
`/^([\u{1F300}-\u{1F9FF}]+)/u` (else the default house emoji). -/
def parsePropertyTitle (title : List Char) : PropertyFields :=
  let price := match scanFirst dollarAt title with
    | some ds => '$' :: ds
    | none => []
  let bedrooms := (scanFirst (digitsThenLit "BR".toList) title).getD []
  let bathrooms := (scanFirst (digitsThenLit "BA".toList) title).getD []
  let status := (scanFirst statusAt title).getD "ACTIVE".toList
  let emojiRun := title.takeWhile inMojiRange
  let emoji := if emojiRun.isEmpty then "🏠".toList else emojiRun
  { status := status, price := price, bedrooms := bedrooms,
    bathrooms := bathrooms, emoji := emoji }

/-!
### C10 — Craigslist price extraction
(`parseForSaleData`, ForSaleTab.tsx lines 85–95)
-/

/-- `String.prototype.toLowerCase`, modelled on the Basic Latin range (the
only case-insensitive probe in the code is the ASCII word "free"). -/
def jsLower (c : Char) : Char :=
  if 'A' ≤ c && c ≤ 'Z' then Char.ofNat (c.toNat + 32) else c

/-- `title.toLowerCase().includes('free')`. -/
def titleHasFree (title : List Char) : Bool :=
  strIncludes (title.map jsLower) "free".toList

/-- ForSaleTab.tsx lines 85–95: price and isFree.  A title containing
"free" (case-insensitively) is Free regardless of any dollar amount;
otherwise the first `/\$([0-9,]+)/` match, or the "Price not listed"
placeholder. -/
def forSalePrice (title : List Char) : List Char × Bool :=
  if titleHasFree title then ("Free".toList, true)
  else
    (match scanFirst dollarAt title with
     | some ds => '$' :: ds
     | none => "Price not listed".toList,
     false)

/-!
### C1 — the XML sanitizer
(`fetchPosts` SocialTab.tsx lines 144–146, `fetchNews` NewsTab.tsx lines
102–104, and the same two chained replaces in every other fetcher)

```
const cleanedXml = xmlText
  .replace(/&(?![a-zA-Z0-9#]{1,7};)/g, '&amp;')
  .replace(/&amp;amp;/g, '&amp;');
```
-/

/-- The character class `[a-zA-Z0-9#]` of the entity-reference pattern. -/
def isEntityChar (c : Char) : Bool :=
  ('a' ≤ c && c ≤ 'z') || ('A' ≤ c && c ≤ 'Z') || ('0' ≤ c && c ≤ '9') || c = '#'

/-- Bounded lookahead: `entChk fuel l` is true iff some `k` with
`1 ≤ k ≤ fuel` has the first `k` characters of `l` in the entity class and
the next character `;` — the backtracking semantics of the regex fragment
`[a-zA-Z0-9#]{1,fuel};`. -/
def entChk : Nat → List Char → Bool
  | _, [] => false
  | 0, _ => false
  | fuel + 1, c :: rest =>
    isEntityChar c && ((rest.head? == some ';') || entChk fuel rest)

/-- The lookahead `(?=[a-zA-Z0-9#]{1,7};)`: the text starts with a valid
XML entity-reference tail. -/
def hasEntityPattern (l : List Char) : Bool := entChk 7 l

/-- First replace: each `&` not followed by the entity pattern becomes
`&amp;`.  Each match is the single `&`, and scanning resumes after the
match, so the replacement text is never rescanned — exactly this
recursion. -/
def pass1 : List Char → List Char
  | [] => []
  | c :: rest =>
    if c = '&' && !hasEntityPattern rest then
      '&' :: 'a' :: 'm' :: 'p' :: ';' :: pass1 rest
    else c :: pass1 rest

/-- Second replace: every `&amp;amp;` collapses to `&amp;`; scanning
resumes after the 9 consumed characters. -/
def pass2 : List Char → List Char
  | '&' :: 'a' :: 'm' :: 'p' :: ';' :: 'a' :: 'm' :: 'p' :: ';' :: rest =>
      '&' :: 'a' :: 'm' :: 'p' :: ';' :: pass2 rest
  | c :: rest => c :: pass2 rest
  | [] => []

/-- The whole sanitizer: the two chained replaces. -/
def sanitizeXml (l : List Char) : List Char := pass2 (pass1 l)

/-- "Free of bare `&`": every `&` in the text is followed by the
entity-reference pattern. -/
def ampFree : List Char → Bool
  | [] => true
  | c :: rest => (c != '&' || hasEntityPattern rest) && ampFree rest

/-!
### C9 — plain-text body cleaning and the minimum-length fallback
(news: `parseNewsData` NewsTab.tsx lines 54–63; education:
`parseEducationData` NewsTab.tsx lines 407–419; politics:
`parsePoliticalData`, same pipeline without the footer removal)

The fuel-indexed recursions below use `fuel = input length`: every step
consumes at least one input character, so the fuel-0 arm is unreachable,
and the structural recursion keeps the definitions kernel-evaluable.
-/

/-- The suffix after the first occurrence of `t`. -/
def afterFirst (t : Char) : List Char → List Char
  | [] => []
  | c :: rest => if c = t then rest else afterFirst t rest

/-- `/<[^>]*>/g` replaced by the empty string: at a `<` that has a later
`>`, the greedy `[^>]*` runs to just before the first subsequent `>`, so
the match consumes through that `>`; a `<` with no later `>` matches
nothing and is copied. -/
def stripTagsFuel : Nat → List Char → List Char
  | _, [] => []
  | 0, l => l
  | fuel + 1, c :: rest =>
    if c = '<' && rest.contains '>' then stripTagsFuel fuel (afterFirst '>' rest)
    else c :: stripTagsFuel fuel rest

def stripTags (l : List Char) : List Char := stripTagsFuel l.length l

/-- `/\s+/g` replaced by a single space (greedy run of JS whitespace). -/
def collapseWsFuel : Nat → List Char → List Char
  | _, [] => []
  | 0, l => l
  | fuel + 1, c :: rest =>
    if isJsWs c then ' ' :: collapseWsFuel fuel (rest.dropWhile isJsWs)
    else c :: collapseWsFuel fuel rest

def collapseWs (l : List Char) : List Char := collapseWsFuel l.length l

/-- The literal scraper error message the news pipeline deletes. -/
def newsErrMsg : List Char :=
  "Could not extract full content, selector may need to be updated.".toList

/-- News cleaning: strip HTML tags, delete the error message, trim. -/
def newsClean (content : List Char) : List Char :=
  jsTrim (replaceAllStr newsErrMsg [] (stripTags content))

def newsFallback : List Char :=
  "Click to read the full article on MLive.com".toList

/-- NewsTab.tsx lines 54–63: the body is the cleaned content, or the
fixed fallback when the cleaned content is shorter than 20 UTF-16 units. -/
def newsContent (content : List Char) : List Char :=
  let clean := newsClean content
  if utf16Len clean < 20 then newsFallback else clean

/-- JS regex `.`: any character but a line terminator. -/
def isDotChar (c : Char) : Bool :=
  !(c = '\n' || c = '\r' || c.toNat = 0x2028 || c.toNat = 0x2029)

def footerHead : List Char := "The post ".toList

def footerTail : List Char := " appeared first on The Michigan Daily.".toList

/-- The greedy `.*` between the footer's two literals: the largest `k`
within the dot-run such that the tail literal follows. -/
def bestDotSplit (r : List Char) : Option Nat :=
  let maxK := (r.takeWhile isDotChar).length
  (List.range (maxK + 1)).foldl
    (fun acc k => if footerTail.isPrefixOf (r.drop k) then some k else acc) none

/-- One-position matcher for
`/The post .* appeared first on The Michigan Daily\./`; returns the
matched length. -/
def matchFooterAt (l : List Char) : Option Nat :=
  if footerHead.isPrefixOf l then
    match bestDotSplit (l.drop footerHead.length) with
    | some k => some (footerHead.length + k + footerTail.length)
    | none => none
  else none

/-- Global removal of the footer pattern (every match is at least 47
characters, so each step consumes at least one character). -/
def removeFooterFuel : Nat → List Char → List Char
  | _, [] => []
  | 0, l => l
  | fuel + 1, c :: rest =>
    match matchFooterAt (c :: rest) with
    | some len => removeFooterFuel fuel ((c :: rest).drop len)
    | none => c :: removeFooterFuel fuel rest

def removeFooter (l : List Char) : List Char := removeFooterFuel l.length l

/-- Education cleaning (NewsTab.tsx lines 410–414): collapse whitespace,
replace `&nbsp;`, delete the Michigan Daily footer, trim. -/
def eduClean (bodyText : List Char) : List Char :=
  jsTrim (removeFooter (replaceAllStr "&nbsp;".toList " ".toList
    (collapseWs bodyText)))

def eduFallback : List Char :=
  "Click to read the full article on The Michigan Daily.".toList

/-- NewsTab.tsx lines 417–419: threshold 50. -/
def eduContent (bodyText : List Char) : List Char :=
  let clean := eduClean bodyText
  if utf16Len clean < 50 then eduFallback else clean

/-- Politics cleaning: collapse whitespace, replace `&nbsp;`, trim. -/
def polClean (bodyText : List Char) : List Char :=
  jsTrim (replaceAllStr "&nbsp;".toList " ".toList (collapseWs bodyText))

def polFallback : List Char :=
  "Click to read the full post on Damn Arbor.".toList

/-- Politics extractor: threshold 50. -/
def polContent (bodyText : List Char) : List Char :=
  let clean := polClean bodyText
  if utf16Len clean < 50 then polFallback else clean

/-!
### C2 — the Reddit item loop (`parseRedditData`, SocialTab.tsx
lines 43–123)

One item, as the loop body sees it: the tag texts read by
`getElementsByTagName` plus the results of the DOM queries over the
HTML fragment parsed from the description (`span[style*="background:
#ff4500"]`, the background-styled spans in document order, and the
content div).  The only operation in the loop body that can throw is
`new URL(link)` (lines 97–103, guarded by its own try/catch); the DOM
parser, `match`, and `parseInt` are total.  The platform URL parser is
the `urlHost` parameter: `none` models `new URL` throwing. -/
structure RedditItem where
  title : List Char
  description : List Char
  link : List Char
  pubDate : List Char
  authorSpan : Option (List Char)
  bgSpans : List (List Char)
  contentDiv : Option (List Char)
deriving DecidableEq

/-- The extracted Reddit post record (SocialTab.tsx lines 4–19). -/
structure RedditPost where
  id : List Char
  title : List Char
  author : List Char
  score : Nat
  comments : Nat
  subreddit : List Char
  url : List Char
  selfText : List Char
  thumbnail : List Char
  created : List Char
  flair : List Char
  postType : List Char
  domain : List Char
  permalink : List Char
deriving DecidableEq

/-- `title.replace(/^[\u{1F300}-\u{1F9FF}]+\s*/u, '')`: strip a leading
run of class characters and the whitespace after it. -/
def stripLeadingMoji (l : List Char) : List Char :=
  let run := l.takeWhile inMojiRange
  if run.isEmpty then l else (l.drop run.length).dropWhile isJsWs

/-- The class `[\u{1F300}-\u{1F9FF}\d\s‚Ä¢]` of the trailing-parenthesis
regex (the bullet appears in the source as the three mojibake
characters). -/
def isParenClass (c : Char) : Bool :=
  inMojiRange c || isAsciiDigit c || isJsWs c || c = '‚' || c = 'Ä' || c = '¢'

/-- Does `/\s*\([...]+\)$/u` match starting exactly here?  `\s*` is
greedy and `(` is not whitespace, `)` is not in the class, so the match
is deterministic: a whitespace run, `(`, a nonempty class run, then `)`
ending the string. -/
def trailParenAt (l : List Char) : Bool :=
  match l.dropWhile isJsWs with
  | '(' :: r2 =>
    let run := r2.takeWhile isParenClass
    !run.isEmpty && (r2.drop run.length == [')'])
  | _ => false

/-- `.replace(/\s*\([...]+\)$/u, '')`: remove from the leftmost position
where the trailing-parenthesis pattern matches through to the end. -/
def stripTrailParen : List Char → List Char
  | [] => []
  | c :: rest => if trailParenAt (c :: rest) then [] else c :: stripTrailParen rest

/-- One-position matcher for `/LIT\s*(\d+)/` (the score and comment
regexes, whose literals are the mojibake emoji of the source). -/
def litThenDigitsAt (pat : List Char) (l : List Char) : Option (List Char) :=
  if pat.isPrefixOf l then
    let r := (l.drop pat.length).dropWhile isJsWs
    let ds := r.takeWhile isAsciiDigit
    if ds.isEmpty then none else some ds
  else none

/-- SocialTab.tsx lines 88–93: post type from the title's leading
mojibake emoji (initialized to "text"). -/
def postTypeOf (title : List Char) : List Char :=
  if ("üîó".toList).isPrefixOf title then "link".toList
  else if ("üñºÔ∏è".toList).isPrefixOf title then "image".toList
  else if ("üìä".toList).isPrefixOf title then "poll".toList
  else if ("üìù".toList).isPrefixOf title then "text".toList
  else "text".toList

/-- SocialTab.tsx lines 63–68: the author span's text with the
`üë§ u/` label removed (empty when the span is absent). -/
def authorOf (authorSpan : Option (List Char)) : List Char :=
  match authorSpan with
  | some t => replaceFirst "üë§ u/".toList [] t
  | none => []

/-- SocialTab.tsx lines 70–78: the `forEach` over background-styled
spans; the last span that is neither the author badge nor a score or
comments badge wins. -/
def flairOf (spans : List (List Char)) : List Char :=
  spans.foldl (fun acc text =>
    if !(strIncludes text "üë§ u/".toList) && !(strIncludes text "Score".toList)
        && !(strIncludes text "Comments".toList) then jsTrim text else acc) []

/-- SocialTab.tsx lines 80–86: the content div's text with the
`/^(Post Content|Self Text)\s*/` label removed, trimmed. -/
def selfTextOf (contentDiv : Option (List Char)) : List Char :=
  match contentDiv with
  | some t =>
    jsTrim (if ("Post Content".toList).isPrefixOf t then
        (t.drop 12).dropWhile isJsWs
      else if ("Self Text".toList).isPrefixOf t then
        (t.drop 9).dropWhile isJsWs
      else t)
  | none => []

/-- SocialTab.tsx lines 95–103: the external-link domain.  `new URL` may
throw (`urlHost link = none`); the catch swallows the exception and the
domain stays empty. -/
def domainOf (urlHost : List Char → Option (List Char)) (link : List Char) :
    List Char :=
  if !link.isEmpty && !(strIncludes link "reddit.com".toList) then
    match urlHost link with
    | some h => h
    | none => []
  else []

/-- SocialTab.tsx line 119. -/
def permalinkOf (link : List Char) : List Char :=
  if strIncludes link "reddit.com".toList then link
  else "https://reddit.com/r/annarbor".toList

/-- The loop body of `parseRedditData` for one item (index `i`,
`Date.now()` = `now`). -/
def buildRedditPost (urlHost : List Char → Option (List Char)) (now : Nat)
    (i : Nat) (it : RedditItem) : RedditPost :=
  { id := Nat.toDigits 10 i ++ '-' :: Nat.toDigits 10 now,
    title := stripTrailParen (stripLeadingMoji it.title),
    author := authorOf it.authorSpan,
    score := (scanFirst (litThenDigitsAt "üëå".toList) it.title).elim 0 digitsToNat,
    comments := (scanFirst (litThenDigitsAt "üí¨".toList) it.title).elim 0 digitsToNat,
    subreddit := "annarbor".toList,
    url := it.link,
    selfText := selfTextOf it.contentDiv,
    thumbnail := [],
    created := it.pubDate,
    flair := flairOf it.bgSpans,
    postType := postTypeOf it.title,
    domain := domainOf urlHost it.link,
    permalink := permalinkOf it.link }

/-- `parseRedditData`: the loop pushes one post per item — no item is
ever skipped, and no exception escapes an iteration (the one throwing
operation is caught around the domain field alone). -/
def parseRedditPosts (urlHost : List Char → Option (List Char)) (now : Nat)
    (items : List RedditItem) : List RedditPost :=
  items.enum.map (fun p => buildRedditPost urlHost now p.1 p.2)

/-- A small concrete model of the platform URL parser for witnesses and
counterexamples: `https://host/...` parses to its host, anything else
throws. -/
def urlHostModel (l : List Char) : Option (List Char) :=
  if ("https://".toList).isPrefixOf l then
    some ((l.drop 8).takeWhile (fun c => c ≠ '/'))
  else none

/-- An item whose link makes `new URL` throw. -/
def c2BadItem : RedditItem :=
  { title := "Broken link post".toList, description := [],
    link := "not a url".toList, pubDate := [],
    authorSpan := none, bgSpans := [], contentDiv := none }

/-- An ordinary item after it. -/
def c2GoodItem : RedditItem :=
  { title := "Good post".toList, description := [],
    link := "https://example.com/a".toList, pubDate := [],
    authorSpan := none, bgSpans := [], contentDiv := none }

/-!
### C8 — the robust Reddit author fallback chain (spec §4.4, step 2)
-/

/-- Modelled from the spec: the "more robust variant" of Reddit author
extraction is not among the repository files under src/ (SocialTab.tsx
carries only the embedded-span scan), so the per-item input is modelled
from the spec's description: a structured author sub-element, the raw
serialized item markup, and the embedded HTML span texts. -/
structure RawRedditItem where
  authorElem : Option (List Char)
  rawMarkup : List Char
  spans : List (List Char)

/-- Modelled from the spec: the most specific raw-markup pattern, a
username in parentheses — `- \(\/u\/([^)]+)\)` — anchored at one
position; the capture is the username. -/
def uParenAt (l : List Char) : Option (List Char) :=
  if ("- (/u/".toList).isPrefixOf l then
    let body := (l.drop 6).takeWhile (fun c => c ≠ ')')
    if !body.isEmpty && ((l.drop 6).drop body.length).head? == some ')' then
      some body
    else none
  else none

/-- Modelled from the spec: the loosest raw-markup pattern, any
`/u/name` — `\/u\/([\w-]+)` — anchored at one position. -/
def uLooseAt (l : List Char) : Option (List Char) :=
  if ("/u/".toList).isPrefixOf l then
    let body := (l.drop 3).takeWhile (fun c => isWordChar c || c = '-')
    if body.isEmpty then none else some body
  else none

/-- Modelled from the spec: a span text's trailing `(/u/name)` marker. -/
def spanTrailAt (l : List Char) : Option (List Char) :=
  if ("(/u/".toList).isPrefixOf l then
    let body := (l.drop 4).takeWhile (fun c => c ≠ ')')
    if !body.isEmpty && ((l.drop 4).drop body.length == [')']) then some body
    else none
  else none

/-- Modelled from the spec: scan the embedded span texts, first
span with a trailing `(/u/name)` wins. -/
def spanScanAuthor (spans : List (List Char)) : Option (List Char) :=
  spans.foldl (fun acc text =>
    match acc with
    | some a => some a
    | none => scanFirst spanTrailAt (jsTrim text)) none

/-- Strip leading and trailing slashes (the spec's normalization). -/
def stripSlashes (l : List Char) : List Char :=
  ((l.dropWhile (fun c => c = '/')).reverse.dropWhile (fun c => c = '/')).reverse

/-- Modelled from the spec: the fallback chain — (a) the structured
author sub-element when non-empty; (b) the raw-markup regexes, most
specific first, first match wins; (c) the span scan; normalize by
stripping slashes; empty when everything fails. -/
def redditAuthorChain (it : RawRedditItem) : List Char :=
  let fromElem : Option (List Char) :=
    match it.authorElem with
    | some a => if a.isEmpty then none else some a
    | none => none
  let result :=
    ((fromElem.orElse (fun _ => scanFirst uParenAt it.rawMarkup)).orElse
      (fun _ => scanFirst uLooseAt it.rawMarkup)).orElse
      (fun _ => spanScanAuthor it.spans)
  match result with
  | some a => stripSlashes a
  | none => []

/-- The author marker of the spec's test sentence. -/
def markerC8 : List Char := "- (/u/someuser)".toList

/-!
### C5 and C6 — the events extractor and sort
(`parseEventData` and `fetchEvents`, SocialTab.tsx lines 473–597 and
647–661 of the events component)

`Date` values are modelled by their millisecond timestamps (`Int`);
`new Date(string)` is the platform parameter `parseDate`, and
`toDateString` equality is calendar-day equality through the platform
parameter `dayOf` (the local-time day index of a timestamp).  The
Unicode `Emoji` property of `/^(\p{Emoji}+)/u` is the platform
parameter `isEmoji`. -/
structure EventItem where
  title : List Char
  description : List Char
  enclosureUrl : Option (List Char)
  h2Text : Option (List Char)
  dateTimeText : List Char
  venueParas : List (List Char)
  detailParas : List (List Char)
deriving DecidableEq

/-- The extracted event record (SocialTab.tsx lines 446–462);
`sortDate` is the millisecond timestamp. -/
structure Event where
  id : List Char
  title : List Char
  date : List Char
  time : List Char
  venue : List Char
  location : List Char
  address : List Char
  category : List Char
  genre : List Char
  priceRange : List Char
  imageUrl : List Char
  description : List Char
  emoji : List Char
  eventName : List Char
  sortDate : Int
deriving DecidableEq

/-- `enclosure?.getAttribute('url') || ''`. -/
def eventImageUrl (it : EventItem) : List Char := it.enclosureUrl.getD []

/-- SocialTab.tsx line 588: the admission rule
`imageUrl && imageUrl.trim() !== '' && imageUrl !== 'undefined'`. -/
def eventAdmit (it : EventItem) : Bool :=
  !(eventImageUrl it).isEmpty && !(jsTrim (eventImageUrl it)).isEmpty
    && !(eventImageUrl it == "undefined".toList)

/-- The `forEach` over a section's paragraphs with an if/else-if chain of
three `includes` probes; a matching paragraph overwrites its field with
the label stripped (first occurrence) and trimmed, so the last matching
paragraph wins. -/
def scanLabeled (lbl1 lbl2 lbl3 : List Char) (paras : List (List Char)) :
    List Char × List Char × List Char :=
  paras.foldl (fun acc text =>
    if strIncludes text lbl1 then
      (jsTrim (replaceFirst lbl1 [] text), acc.2.1, acc.2.2)
    else if strIncludes text lbl2 then
      (acc.1, jsTrim (replaceFirst lbl2 [] text), acc.2.2)
    else if strIncludes text lbl3 then
      (acc.1, acc.2.1, jsTrim (replaceFirst lbl3 [] text))
    else acc) ([], [], [])

/-- The continuation of the date regex after its `\w+day,` head:
`\s+\w+\s+\d+,\s+\d+`.  Every adjacent pair of character classes here is
disjoint, so each greedy run is forced and no backtracking case
survives; returns the consumed length. -/
def dateTailLen (r : List Char) : Option Nat :=
  let w1 := r.takeWhile isJsWs
  if w1.isEmpty then none else
  let r1 := r.drop w1.length
  let a1 := r1.takeWhile isWordChar
  if a1.isEmpty then none else
  let r2 := r1.drop a1.length
  let w2 := r2.takeWhile isJsWs
  if w2.isEmpty then none else
  let r3 := r2.drop w2.length
  let d1 := r3.takeWhile isAsciiDigit
  if d1.isEmpty then none else
  match r3.drop d1.length with
  | ',' :: r5 =>
    let w3 := r5.takeWhile isJsWs
    if w3.isEmpty then none else
    let d2 := (r5.drop w3.length).takeWhile isAsciiDigit
    if d2.isEmpty then none else
    some (w1.length + a1.length + w2.length + d1.length + 1 + w3.length + d2.length)
  | _ => none

/-- One-position matcher for `/(\w+day,\s+\w+\s+\d+,\s+\d+)/`.  The
head `\w+` must backtrack (its class contains `d`, `a`, `y`), so every
split `k` of the word run is tried and — per greedy semantics — the
largest `k` whose full continuation succeeds wins. -/
def dateMatchAt (l : List Char) : Option (List Char) :=
  let maxR := (l.takeWhile isWordChar).length
  match (List.range (maxR + 1)).foldl (fun acc k =>
      if 1 ≤ k && ("day,".toList).isPrefixOf (l.drop k) then
        match dateTailLen (l.drop (k + 4)) with
        | some t => some (k + 4 + t)
        | none => acc
      else acc) none with
  | some len => some (l.take len)
  | none => none

/-- One-position matcher for `/(\d+:\d+\s+[AP]M)/` (all adjacent classes
disjoint, so greedy runs are forced). -/
def timeMatchAt (l : List Char) : Option (List Char) :=
  let d1 := l.takeWhile isAsciiDigit
  if d1.isEmpty then none else
  match l.drop d1.length with
  | ':' :: r2 =>
    let d2 := r2.takeWhile isAsciiDigit
    if d2.isEmpty then none else
    let r3 := r2.drop d2.length
    let w := r3.takeWhile isJsWs
    if w.isEmpty then none else
    match r3.drop w.length with
    | 'A' :: 'M' :: _ => some (l.take (d1.length + 1 + d2.length + w.length + 2))
    | 'P' :: 'M' :: _ => some (l.take (d1.length + 1 + d2.length + w.length + 2))
    | _ => none
  | _ => none

/-- The loop body of `parseEventData` for one item: all fields of the
event record.  `sortDate` is `new Date()` (= `nowMs`) when the date
regex found nothing, else the parsed event date (`new Date(eventDate)`
never throws, so the surrounding try/catch never fires). -/
def buildEvent (isEmoji : Char → Bool) (parseDate : List Char → Int)
    (nowMs : Int) (nowN : Nat) (i : Nat) (it : EventItem) : Event :=
  let imageUrl := eventImageUrl it
  let v := scanLabeled "🏟️ Venue:".toList "🏙️ Location:".toList
    "📮 Address:".toList it.venueParas
  let dtl := scanLabeled "🎭 Category:".toList "🎪 Genre:".toList
    "💰 Price Range:".toList it.detailParas
  let emojiRun := it.title.takeWhile isEmoji
  let emoji := if emojiRun.isEmpty then "🎪".toList else emojiRun
  let eventDate := (scanFirst dateMatchAt it.dateTimeText).getD []
  let eventTime := (scanFirst timeMatchAt it.dateTimeText).getD "Time TBA".toList
  { id := Nat.toDigits 10 i ++ '-' :: Nat.toDigits 10 nowN,
    title := it.title,
    date := eventDate,
    time := eventTime,
    venue := v.1, location := v.2.1, address := v.2.2,
    category := dtl.1, genre := dtl.2.1, priceRange := dtl.2.2,
    imageUrl := imageUrl,
    description := it.description,
    emoji := emoji,
    eventName := jsTrim (replaceFirst emoji [] (it.h2Text.getD [])),
    sortDate := if eventDate.isEmpty then nowMs else parseDate eventDate }

/-- `parseEventData`: build every item's record and push it exactly when
the admission rule holds. -/
def parseEventData (isEmoji : Char → Bool) (parseDate : List Char → Int)
    (nowMs : Int) (nowN : Nat) (items : List EventItem) : List Event :=
  items.enum.filterMap (fun p =>
    if eventAdmit p.2 then some (buildEvent isEmoji parseDate nowMs nowN p.1 p.2)
    else none)

/-- `a.sortDate.toDateString() === today.toDateString()`: same local
calendar day. -/
def eventIsToday (dayOf : Int → Int) (nowMs : Int) (e : Event) : Bool :=
  dayOf e.sortDate == dayOf nowMs

/-- The sort comparator of `fetchEvents` (lines 651–661): today's events
first, then ascending by timestamp. -/
def eventCmp (dayOf : Int → Int) (nowMs : Int) (a b : Event) : Int :=
  if eventIsToday dayOf nowMs a && !eventIsToday dayOf nowMs b then -1
  else if !eventIsToday dayOf nowMs a && eventIsToday dayOf nowMs b then 1
  else a.sortDate - b.sortDate

/-- The comparator's nonpositive half: `a` may come before `b`. -/
def eventLe (dayOf : Int → Int) (nowMs : Int) (a b : Event) : Bool :=
  decide (eventCmp dayOf nowMs a b ≤ 0)

/-- `newEvents.sort(comparator)`: a comparison sort consistent with the
comparator (the comparator is a total preorder — see `c6` — and
`Array.prototype.sort` is stable, so merge sort models it). -/
def sortEvents (dayOf : Int → Int) (nowMs : Int) (l : List Event) : List Event :=
  l.mergeSort (eventLe dayOf nowMs)

/-- A witness item with no enclosure image. -/
def evItemNoImg : EventItem :=
  { title := "Concert A".toList, description := [], enclosureUrl := none,
    h2Text := none, dateTimeText := [], venueParas := [], detailParas := [] }

/-- A witness item with an image URL. -/
def evItemImg : EventItem :=
  { title := "Concert B".toList, description := [],
    enclosureUrl := some "https://img.example/x.jpg".toList,
    h2Text := none, dateTimeText := [], venueParas := [], detailParas := [] }

/-- A bare event with a given timestamp (for sort witnesses). -/
def evAt (t : Int) : Event :=
  { id := [], title := [], date := [], time := [], venue := [], location := [],
    address := [], category := [], genre := [], priceRange := [], imageUrl := [],
    description := [], emoji := [], eventName := [], sortDate := t }

/-! ### Theorems for C3, C4, C7, C10 -/

/-- C4: whenever the primary tag-name query returns zero results, the
extractor falls back to the alternate query mechanism, and the node set it
then operates on is exactly the node set the alternate query returns
directly on that document. -/
theorem c4_fallback_query_equals_direct {ν : Type} (d : XmlDoc ν)
    (tag : List Char) (h : (d.byTagName tag).length = 0) :
    selectItemNodes d tag = d.bySelector tag := by
  simp [selectItemNodes, h]

/-- Witness for C4 on a concrete document whose primary query is empty. -/
theorem c4_fallback_query_equals_direct_witness :
    selectItemNodes (XmlDoc.mk (fun _ => ([] : List Nat)) (fun _ => [7])) "item".toList
      = [7] :=
  c4_fallback_query_equals_direct (XmlDoc.mk (fun _ => ([] : List Nat)) (fun _ => [7])) "item".toList rfl

/-- C3: Reddit pagination with fixed page size 20: the window is the slice
`[N*20, (N+1)*20)` of the extracted list (elementwise), hasMore is
`(N+1)*20 < length`, page 0 replaces the current list, and page N > 0
appends exactly `min 20 (length - N*20)` records. -/
theorem c3_reddit_pagination {α : Type} (prev posts : List α) (N : Nat) :
    ((redditPageSlice posts N).length = min 20 (posts.length - N * 20))
    ∧ (∀ i, i < 20 → (redditPageSlice posts N)[i]? = posts[N * 20 + i]?)
    ∧ (redditHasMore posts N = true ↔ N * 20 + 20 < posts.length)
    ∧ (redditApplyPage prev posts 0 = redditPageSlice posts 0)
    ∧ (0 < N → redditApplyPage prev posts N = prev ++ redditPageSlice posts N)
    ∧ (0 < N → (redditApplyPage prev posts N).length
        = prev.length + min 20 (posts.length - N * 20)) := by
  refine ⟨?_, ?_, ?_, ?_, ?_, ?_⟩
  · simp [redditPageSlice, jsSlice]
  · intro i hi
    simp [redditPageSlice, jsSlice, List.getElem?_take, hi, List.getElem?_drop]
  · simp [redditHasMore]
  · simp [redditApplyPage]
  · intro h
    simp [redditApplyPage, Nat.pos_iff_ne_zero.mp h]
  · intro h
    simp [redditApplyPage, Nat.pos_iff_ne_zero.mp h, redditPageSlice, jsSlice]

/-- Witness for C3 at a concrete list of 45 records, page 1. -/
theorem c3_reddit_pagination_witness :
    (redditPageSlice (List.range 45) 1)[3]? = (List.range 45)[23]?
    ∧ (redditApplyPage (List.range 20) (List.range 45) 1).length
        = 20 + min 20 (45 - 1 * 20) := by
  have h := c3_reddit_pagination (List.range 20) (List.range 45) 1
  exact ⟨h.2.1 3 (by decide), by rw [h.2.2.2.2.2 (by decide)]; rfl⟩

/-- C7: on the sample real-estate title, the title regexes yield
status NEW, price $299,900, 4 bedrooms, 2 bathrooms, and the house
emoji. -/
theorem c7_housing_title_extraction :
    parsePropertyTitle "🏠 NEW: 123 Main St, Ann Arbor, MI 48103 - $299,900 | 4BR/2BA".toList
      = { status := "NEW".toList, price := "$299,900".toList,
          bedrooms := "4".toList, bathrooms := "2".toList,
          emoji := "🏠".toList } := by
  decide

/-- C10: a Craigslist title containing "free" in any letter case yields
price "Free" and isFree true, even when a dollar amount is also present;
any other title yields isFree false and the first `$`-digits-and-commas
match (or the placeholder when there is none). -/
theorem c10_forsale_price (title : List Char) :
    (titleHasFree title = true → forSalePrice title = ("Free".toList, true))
    ∧ (titleHasFree title = false →
        (forSalePrice title).2 = false
        ∧ (∀ ds, scanFirst dollarAt title = some ds →
            (forSalePrice title).1 = '$' :: ds)
        ∧ (scanFirst dollarAt title = none →
            (forSalePrice title).1 = "Price not listed".toList)) := by
  constructor
  · intro h
    simp [forSalePrice, h]
  · intro h
    refine ⟨?_, ?_, ?_⟩
    · simp [forSalePrice, h]
    · intro ds hds
      simp [forSalePrice, h, hds]
    · intro hnone
      simp [forSalePrice, h, hnone]

/-- Witness for C10: a title with both "Free" and a dollar amount is Free;
a title without "free" gets its first dollar match. -/
theorem c10_forsale_price_witness :
    forSalePrice "🪑 Free couch - $50".toList = ("Free".toList, true)
    ∧ forSalePrice "Nice couch - $50".toList = ("$50".toList, false) := by
  constructor
  · exact (c10_forsale_price "🪑 Free couch - $50".toList).1 (by decide)
  · have h := (c10_forsale_price "Nice couch - $50".toList).2 (by decide)
    exact Prod.ext_iff.mpr ⟨h.2.1 "50".toList (by decide), h.1⟩

/-! ### C1 proof chain -/

theorem pass2_pat (rest : List Char) :
    pass2 ('&' :: 'a' :: 'm' :: 'p' :: ';' :: 'a' :: 'm' :: 'p' :: ';' :: rest)
      = '&' :: 'a' :: 'm' :: 'p' :: ';' :: pass2 rest := by
  simp only [pass2]

theorem pass2_cons_ne (c : Char) (rest : List Char) (h : c ≠ '&') :
    pass2 (c :: rest) = c :: pass2 rest := by
  rw [pass2.eq_def]
  split
  · rename_i heq; injection heq with h1 h2; exact absurd h1 h
  · rename_i heq; injection heq with h1 h2; rw [h1, h2]
  · rename_i heq; simp at heq

theorem isEntityChar_amp : isEntityChar '&' = false := by decide

theorem hasEntityPattern_amp (t : List Char) :
    hasEntityPattern ('a' :: 'm' :: 'p' :: ';' :: t) = true := by
  simp [hasEntityPattern, entChk, isEntityChar]

/-- A text starting with the entity pattern still starts with it after
pass 1: the pattern's characters (entity class, then `;`) are never `&`,
so pass 1 copies them unchanged. -/
theorem entChk_pass1 (fuel : Nat) (l : List Char) (h : entChk fuel l = true) :
    entChk fuel (pass1 l) = true := by
  induction fuel generalizing l with
  | zero => cases l <;> simp [entChk] at h
  | succ f ih =>
    cases l with
    | nil => simp [entChk] at h
    | cons c rest =>
      simp only [entChk, Bool.and_eq_true, Bool.or_eq_true] at h
      obtain ⟨hc, hrest⟩ := h
      have hcne : c ≠ '&' := by
        intro hceq; rw [hceq, isEntityChar_amp] at hc; exact Bool.noConfusion hc
      have hp1 : pass1 (c :: rest) = c :: pass1 rest := by
        simp [pass1, hcne]
      rw [hp1]
      simp only [entChk, Bool.and_eq_true, Bool.or_eq_true]
      refine ⟨hc, ?_⟩
      rcases hrest with hsemi | hrec
      · left
        cases rest with
        | nil => simp at hsemi
        | cons r rs =>
          simp at hsemi
          have : pass1 (r :: rs) = r :: pass1 rs := by
            subst hsemi
            simp [pass1]
          rw [this]
          simp [hsemi]
      · right; exact ih rest hrec

theorem hasEntityPattern_pass1 (l : List Char) (h : hasEntityPattern l = true) :
    hasEntityPattern (pass1 l) = true := entChk_pass1 7 l h

theorem ampFree_cons_ne (c : Char) (rest : List Char) (h : (c != '&') = true) :
    ampFree (c :: rest) = ampFree rest := by
  simp [ampFree, h]

theorem ampFree_cons_amp (rest : List Char) :
    ampFree ('&' :: rest) = (hasEntityPattern rest && ampFree rest) := by
  simp [ampFree]

/-- After pass 1 every `&` is followed by the entity pattern: a replaced
`&` is followed by the inserted `amp;`, and a kept `&` was already
followed by the pattern, which pass 1 preserves. -/
theorem ampFree_pass1 (l : List Char) : ampFree (pass1 l) = true := by
  induction l with
  | nil => rfl
  | cons c rest ih =>
    by_cases hc : (c = '&' && !hasEntityPattern rest) = true
    · have hp : pass1 (c :: rest) = '&' :: 'a' :: 'm' :: 'p' :: ';' :: pass1 rest := by
        simp only [pass1, if_pos hc]
      rw [hp, ampFree_cons_amp, hasEntityPattern_amp,
        ampFree_cons_ne 'a' _ (by decide), ampFree_cons_ne 'm' _ (by decide),
        ampFree_cons_ne 'p' _ (by decide), ampFree_cons_ne ';' _ (by decide),
        ih]
      rfl
    · have hp : pass1 (c :: rest) = c :: pass1 rest := by
        simp only [pass1, if_neg hc]
      rw [hp]
      by_cases hce : c = '&'
      · subst hce
        have hent : hasEntityPattern rest = true := by
          simp at hc; exact hc
        rw [ampFree_cons_amp, hasEntityPattern_pass1 rest hent, ih]
        rfl
      · rw [ampFree_cons_ne c _ (by simp [hce]), ih]

/-- Pass 2 also preserves a leading entity pattern: a collapse match
starts with `&`, which never occurs inside the pattern's span. -/
theorem entChk_pass2 (fuel : Nat) (l : List Char) (h : entChk fuel l = true) :
    entChk fuel (pass2 l) = true := by
  induction fuel generalizing l with
  | zero => cases l <;> simp [entChk] at h
  | succ f ih =>
    cases l with
    | nil => simp [entChk] at h
    | cons c rest =>
      simp only [entChk, Bool.and_eq_true, Bool.or_eq_true] at h
      obtain ⟨hc, hrest⟩ := h
      have hcne : c ≠ '&' := by
        intro hceq; rw [hceq, isEntityChar_amp] at hc; exact Bool.noConfusion hc
      rw [pass2_cons_ne c rest hcne]
      simp only [entChk, Bool.and_eq_true, Bool.or_eq_true]
      refine ⟨hc, ?_⟩
      rcases hrest with hsemi | hrec
      · left
        cases rest with
        | nil => simp at hsemi
        | cons r rs =>
          simp at hsemi
          subst hsemi
          rw [pass2_cons_ne ';' rs (by decide)]
          simp
      · right; exact ih rest hrec

theorem hasEntityPattern_pass2 (l : List Char) (h : hasEntityPattern l = true) :
    hasEntityPattern (pass2 l) = true := entChk_pass2 7 l h

theorem pass2_amp_nomatch (rest : List Char)
    (h : ∀ r : List Char,
      rest ≠ 'a' :: 'm' :: 'p' :: ';' :: 'a' :: 'm' :: 'p' :: ';' :: r) :
    pass2 ('&' :: rest) = '&' :: pass2 rest := by
  rw [pass2.eq_def]
  split
  · rename_i heq
    injection heq with h1 h2
    exact absurd h2 (h _)
  · rename_i heq; injection heq with h1 h2; rw [h1, h2]
  · rename_i heq; simp at heq

/-- Pass 2 keeps the no-bare-`&` invariant. -/
theorem ampFree_pass2 (l : List Char) (h : ampFree l = true) :
    ampFree (pass2 l) = true := by
  induction l using pass2.induct with
  | case1 rest ih =>
    rw [ampFree_cons_amp, ampFree_cons_ne 'a' _ (by decide),
      ampFree_cons_ne 'm' _ (by decide), ampFree_cons_ne 'p' _ (by decide),
      ampFree_cons_ne ';' _ (by decide),
      ampFree_cons_ne 'a' _ (by decide), ampFree_cons_ne 'm' _ (by decide),
      ampFree_cons_ne 'p' _ (by decide), ampFree_cons_ne ';' _ (by decide)]
      at h
    have hrest : ampFree rest = true := (Bool.and_eq_true_iff.mp h).2
    rw [pass2_pat, ampFree_cons_amp, hasEntityPattern_amp,
      ampFree_cons_ne 'a' _ (by decide), ampFree_cons_ne 'm' _ (by decide),
      ampFree_cons_ne 'p' _ (by decide), ampFree_cons_ne ';' _ (by decide),
      ih hrest]
    rfl
  | case2 c rest hno ih =>
    by_cases hce : c = '&'
    · subst hce
      rw [ampFree_cons_amp, Bool.and_eq_true] at h
      rw [pass2_amp_nomatch rest (fun r hr => hno r rfl hr)]
      rw [ampFree_cons_amp, hasEntityPattern_pass2 rest h.1, ih h.2]
      rfl
    · rw [ampFree_cons_ne c _ (by simp [hce])] at h
      rw [pass2_cons_ne c rest hce, ampFree_cons_ne c _ (by simp [hce])]
      exact ih h
  | case3 => exact h

theorem ampFree_split (pre post : List Char)
    (h : ampFree (pre ++ '&' :: post) = true) : hasEntityPattern post = true := by
  induction pre with
  | nil =>
    rw [List.nil_append, ampFree_cons_amp, Bool.and_eq_true] at h
    exact h.1
  | cons p ps ih =>
    rw [List.cons_append] at h
    by_cases hpe : p = '&'
    · subst hpe
      rw [ampFree_cons_amp, Bool.and_eq_true] at h
      exact ih h.2
    · rw [ampFree_cons_ne p _ (by simp [hpe])] at h
      exact ih h

/-- C1: for every input, every `&` in the sanitizer's output is followed
by a valid XML entity-reference pattern (`[a-zA-Z0-9#]{1,7};`) — the
output is free of bare `&`. -/
theorem c1_sanitizer_no_bare_amp (l pre post : List Char)
    (h : sanitizeXml l = pre ++ '&' :: post) : hasEntityPattern post = true := by
  have h2 : ampFree (sanitizeXml l) = true :=
    ampFree_pass2 _ (ampFree_pass1 l)
  rw [h] at h2
  exact ampFree_split pre post h2

/-- Witness for C1: the malformed input "a & b" sanitizes to "a &amp; b";
its one `&` is followed by the entity pattern. -/
theorem c1_sanitizer_no_bare_amp_witness : hasEntityPattern "amp; b".toList = true :=
  c1_sanitizer_no_bare_amp "a & b".toList "a ".toList "amp; b".toList (by decide)

/-- C9: in every plain-text domain extractor, a cleaned content text
shorter than the domain's threshold (news 20, education 50, politics 50
UTF-16 units) is replaced by the domain's fixed "click through" message;
at or above the threshold the cleaned text itself is kept. -/
theorem c9_minimum_length_fallback (newsRaw eduBody polBody : List Char) :
    (utf16Len (newsClean newsRaw) < 20 → newsContent newsRaw = newsFallback)
    ∧ (20 ≤ utf16Len (newsClean newsRaw) → newsContent newsRaw = newsClean newsRaw)
    ∧ (utf16Len (eduClean eduBody) < 50 → eduContent eduBody = eduFallback)
    ∧ (50 ≤ utf16Len (eduClean eduBody) → eduContent eduBody = eduClean eduBody)
    ∧ (utf16Len (polClean polBody) < 50 → polContent polBody = polFallback)
    ∧ (50 ≤ utf16Len (polClean polBody) → polContent polBody = polClean polBody) := by
  refine ⟨?_, ?_, ?_, ?_, ?_, ?_⟩ <;> intro h
  · simp [newsContent, h]
  · simp [newsContent, Nat.not_lt.mpr h]
  · simp [eduContent, h]
  · simp [eduContent, Nat.not_lt.mpr h]
  · simp [polContent, h]
  · simp [polContent, Nat.not_lt.mpr h]

/-- Witness for C9: short cleaned bodies in each domain get the fixed
message; a long enough politics body is kept as cleaned. -/
theorem c9_minimum_length_fallback_witness :
    newsContent "<p>Hi</p>".toList = newsFallback
    ∧ eduContent "Too short.".toList = eduFallback
    ∧ polContent "Hi".toList = polFallback
    ∧ polContent "This deliberately verbose body text is over fifty characters long.".toList
        = polClean "This deliberately verbose body text is over fifty characters long.".toList := by
  refine ⟨?_, ?_, ?_, ?_⟩
  · exact (c9_minimum_length_fallback "<p>Hi</p>".toList [] []).1 (by decide)
  · exact (c9_minimum_length_fallback [] "Too short.".toList []).2.2.1 (by decide)
  · exact (c9_minimum_length_fallback [] [] "Hi".toList).2.2.2.2.1 (by decide)
  · exact (c9_minimum_length_fallback [] []
      "This deliberately verbose body text is over fifty characters long.".toList).2.2.2.2.2
      (by decide)

/-! ### C2: counterexample, amended theorem, witness -/

/-- C2 counterexample: a batch of two items whose first item's field
extraction raises (its link makes `new URL` throw).  The claim predicts
the failing item is skipped and only the remaining item yields a record
(output length 1); the code retains it — with its domain empty — so the
output has length 2. -/
theorem c2_item_failure_counterexample :
    (parseRedditPosts urlHostModel 0 [c2BadItem, c2GoodItem]).length = 2
    ∧ ((parseRedditPosts urlHostModel 0 [c2BadItem, c2GoodItem]).map
        RedditPost.domain) = [[], "example.com".toList]
    ∧ ¬ (parseRedditPosts urlHostModel 0 [c2BadItem, c2GoodItem]).length = 1 := by
  refine ⟨by decide, by decide, by decide⟩

/-- C2 as amended: an exception while extracting an item's fields (the
URL parse, the loop body's only throwing operation) is caught locally
and never escalated, extraction continues with the next item — but the
failing item is retained, with its domain field empty, rather than
skipped: every item yields exactly one record, in order. -/
theorem c2_item_failure_retained (urlHost : List Char → Option (List Char))
    (now : Nat) (items : List RedditItem) :
    (parseRedditPosts urlHost now items).length = items.length
    ∧ (∀ i it, items[i]? = some it →
        (parseRedditPosts urlHost now items)[i]?
          = some (buildRedditPost urlHost now i it))
    ∧ (∀ i it, items[i]? = some it → urlHost it.link = none →
        (buildRedditPost urlHost now i it).domain = []) := by
  refine ⟨?_, ?_, ?_⟩
  · simp [parseRedditPosts, List.enum_length]
  · intro i it h
    simp [parseRedditPosts, List.getElem?_map, List.getElem?_enum, h]
  · intro i it h hurl
    show domainOf urlHost it.link = []
    unfold domainOf
    split
    · rw [hurl]
    · rfl

/-- Witness for C2's amended theorem at a concrete failing item. -/
theorem c2_item_failure_retained_witness :
    (parseRedditPosts urlHostModel 7 [c2BadItem]).length = 1
    ∧ (buildRedditPost urlHostModel 7 0 c2BadItem).domain = [] := by
  have h := c2_item_failure_retained urlHostModel 7 [c2BadItem]
  exact ⟨h.1, h.2.2 0 c2BadItem (by decide) (by decide)⟩

/-! ### C8: the author fallback chain resolves the parenthesized marker -/

theorem uParenAt_marker (post : List Char) :
    uParenAt (markerC8 ++ post) = some "someuser".toList := rfl

/-- No username-in-parentheses match can start strictly before the
marker when no `(` precedes it: a match starting inside `pre` needs its
`(` (pattern index 2) inside `pre`, and a match overlapping the boundary
would need a space or `(` where the marker's leading `-` stands. -/
theorem uParenAt_none_of_no_paren (p : Char) (ps post : List Char)
    (hp : (p :: ps).all (fun c => c ≠ '(') = true) :
    uParenAt (p :: (ps ++ markerC8 ++ post)) = none := by
  have hcond : ("- (/u/".toList).isPrefixOf (p :: (ps ++ markerC8 ++ post)) = false := by
    rcases ps with _ | ⟨q, _ | ⟨r, rs⟩⟩
    · simp [List.isPrefixOf, markerC8]
    · simp [List.isPrefixOf, markerC8]
    · simp only [List.all_cons, Bool.and_eq_true, decide_eq_true_eq] at hp
      have hr : r ≠ '(' := hp.2.2.1
      simp [List.isPrefixOf, markerC8, hr, Ne.symm hr]
  unfold uParenAt
  rw [hcond]
  rfl

theorem scanFirst_marker (pre post : List Char)
    (hp : pre.all (fun c => c ≠ '(') = true) :
    scanFirst uParenAt (pre ++ markerC8 ++ post) = some "someuser".toList := by
  induction pre with
  | nil => exact uParenAt_marker post
  | cons p ps ih =>
    have hps : ps.all (fun c => c ≠ '(') = true := by
      simp only [List.all_cons, Bool.and_eq_true] at hp
      exact hp.2
    have hnone := uParenAt_none_of_no_paren p ps post hp
    rw [List.cons_append, List.cons_append]
    show scanFirst uParenAt (p :: (ps ++ markerC8 ++ post)) = _
    rw [scanFirst, hnone]
    exact ih hps

/-- C8: an item whose raw serialized markup contains "- (/u/someuser)"
(with no opening parenthesis before the marker, so the marker is the
pattern's first candidate) and which has no structured author
sub-element resolves its author to "someuser" through the fallback
chain. -/
theorem c8_author_marker_resolves (it : RawRedditItem) (pre post : List Char)
    (h1 : it.authorElem = none)
    (h2 : it.rawMarkup = pre ++ markerC8 ++ post)
    (h3 : pre.all (fun c => c ≠ '(') = true) :
    redditAuthorChain it = "someuser".toList := by
  unfold redditAuthorChain
  rw [h1, h2, scanFirst_marker pre post h3]
  rfl

/-- Witness for C8 on a concrete serialized item. -/
theorem c8_author_marker_resolves_witness :
    redditAuthorChain
      { authorElem := none,
        rawMarkup := "<description>Posted by - (/u/someuser)</description>".toList,
        spans := [] } = "someuser".toList :=
  c8_author_marker_resolves _ "<description>Posted by ".toList
    "</description>".toList rfl (by decide) (by decide)

/-! ### C5: the admission rule -/

theorem filterMap_ite_eq_filter_map {α β : Type} (l : List α) (p : α → Bool)
    (f : α → β) :
    l.filterMap (fun x => if p x then some (f x) else none)
      = (l.filter p).map f := by
  induction l with
  | nil => rfl
  | cons a t ih =>
    by_cases h : p a = true <;>
      simp [List.filterMap_cons, List.filter_cons, h, ih]

/-- C5: an event record appears in the output exactly when the item's
extracted image URL passes the admission rule (non-empty, not
all-whitespace, not the literal "undefined"); the output is precisely
the in-order image-bearing items' records, so a failing item is skipped
while every other item is still processed. -/
theorem c5_event_admission (isEmoji : Char → Bool) (parseDate : List Char → Int)
    (nowMs : Int) (nowN : Nat) (items : List EventItem) :
    parseEventData isEmoji parseDate nowMs nowN items
      = (items.enum.filter (fun p => eventAdmit p.2)).map
          (fun p => buildEvent isEmoji parseDate nowMs nowN p.1 p.2)
    ∧ (∀ it : EventItem, eventAdmit it = true ↔
        (eventImageUrl it ≠ [] ∧ jsTrim (eventImageUrl it) ≠ []
          ∧ eventImageUrl it ≠ "undefined".toList)) := by
  constructor
  · exact filterMap_ite_eq_filter_map _ _ _
  · intro it
    simp [eventAdmit]
    exact and_assoc

/-- Witness for C5: of two concrete items, only the image-bearing one
yields a record, and it is still processed after the skipped one. -/
theorem c5_event_admission_witness :
    parseEventData (fun _ => false) (fun _ => 0) 0 0 [evItemNoImg, evItemImg]
      = [buildEvent (fun _ => false) (fun _ => 0) 0 0 1 evItemImg] := by
  rw [(c5_event_admission (fun _ => false) (fun _ => 0) 0 0
    [evItemNoImg, evItemImg]).1]
  decide

/-! ### C6: the events sort -/

theorem eventLe_trans (dayOf : Int → Int) (nowMs : Int) (a b c : Event)
    (hab : eventLe dayOf nowMs a b = true)
    (hbc : eventLe dayOf nowMs b c = true) :
    eventLe dayOf nowMs a c = true := by
  simp only [eventLe, eventCmp, decide_eq_true_eq] at *
  cases hA : eventIsToday dayOf nowMs a <;>
    cases hB : eventIsToday dayOf nowMs b <;>
      cases hC : eventIsToday dayOf nowMs c <;>
        simp [hA, hB, hC] at * <;> omega

theorem eventLe_total (dayOf : Int → Int) (nowMs : Int) (a b : Event) :
    (eventLe dayOf nowMs a b || eventLe dayOf nowMs b a) = true := by
  simp only [eventLe, eventCmp, Bool.or_eq_true, decide_eq_true_eq]
  cases hA : eventIsToday dayOf nowMs a <;>
    cases hB : eventIsToday dayOf nowMs b <;>
      simp [hA, hB] <;> omega

/-- C6: the events sort is a permutation in which (a) a today-event never
follows a non-today event — so a today-event and a future-day event end
up today-first regardless of input order (last conjunct) — and (b) among
non-today events the order is ascending by sortDate. -/
theorem c6_events_sort (dayOf : Int → Int) (nowMs : Int) (l : List Event) :
    (sortEvents dayOf nowMs l).Perm l
    ∧ (∀ i j : Fin (sortEvents dayOf nowMs l).length, i < j →
        eventIsToday dayOf nowMs ((sortEvents dayOf nowMs l).get j) = true →
        eventIsToday dayOf nowMs ((sortEvents dayOf nowMs l).get i) = true)
    ∧ (∀ i j : Fin (sortEvents dayOf nowMs l).length, i < j →
        eventIsToday dayOf nowMs ((sortEvents dayOf nowMs l).get i) = false →
        eventIsToday dayOf nowMs ((sortEvents dayOf nowMs l).get j) = false →
        ((sortEvents dayOf nowMs l).get i).sortDate
          ≤ ((sortEvents dayOf nowMs l).get j).sortDate)
    ∧ (∀ i j : Fin (sortEvents dayOf nowMs l).length,
        eventIsToday dayOf nowMs ((sortEvents dayOf nowMs l).get i) = true →
        dayOf (((sortEvents dayOf nowMs l).get j).sortDate) > dayOf nowMs →
        (i : Nat) < (j : Nat)) := by
  simp only [sortEvents]
  have hPW := @List.sorted_mergeSort Event (eventLe dayOf nowMs)
    (eventLe_trans dayOf nowMs) (eventLe_total dayOf nowMs) l
  have hget := List.pairwise_iff_get.mp hPW
  refine ⟨List.mergeSort_perm l _, ?_, ?_, ?_⟩
  · intro i j hij hj
    cases hI : eventIsToday dayOf nowMs ((l.mergeSort (eventLe dayOf nowMs)).get i) with
    | true => rfl
    | false =>
      have hle := hget i j hij
      simp only [eventLe, eventCmp, decide_eq_true_eq, hI, hj] at hle
      simp at hle
  · intro i j hij hI hJ
    have hle := hget i j hij
    simp only [eventLe, eventCmp, decide_eq_true_eq, hI, hJ] at hle
    simp at hle
    simp only [List.get_eq_getElem]
    omega
  · intro i j hI hfut
    have hJ : eventIsToday dayOf nowMs ((l.mergeSort (eventLe dayOf nowMs)).get j)
        = false := by
      simp only [eventIsToday, beq_eq_false_iff_ne]
      omega
    rcases Nat.lt_trichotomy (i : Nat) (j : Nat) with h | h | h
    · exact h
    · exfalso
      have : i = j := Fin.ext h
      rw [this, hJ] at hI
      exact Bool.noConfusion hI
    · exfalso
      have hle := hget j i h
      simp only [eventLe, eventCmp, decide_eq_true_eq, hI, hJ] at hle
      simp at hle

/-- Witness for C6: a concrete future event and a concrete today event
sort into a permutation of the input. -/
theorem c6_events_sort_witness :
    (sortEvents (fun t => t / 86400000) 0 [evAt 200000000, evAt 1000]).Perm
      [evAt 200000000, evAt 1000] :=
  (c6_events_sort (fun t => t / 86400000) 0 [evAt 200000000, evAt 1000]).1
